import Mathlib

/-!
Verification of the TerminalCoin portfolio ledger and valuator.

Shallow embedding of `src/database.py` (`Database.add_transaction`,
`Database.get_holdings`, `Database.get_transactions`) and
`src/portfolio_manager.py` (`PortfolioManager.add_transaction`,
`PortfolioManager.get_portfolio_summary`).

Modelling conventions:
- Python floats are modelled as rationals (`ℚ`).
- The SQLite `holdings` table is a list of `Holding` rows, the
  `transactions` table a list of `Txn` rows (insertion order).
- `datetime.utcnow()` is modelled by an explicit `now : Nat` argument.
- Storage faults are modelled by a `fail : Option Nat` argument: `some k`
  means the k-th SQL statement of the call raises.  The `with conn:` block
  of `sqlite3` commits on normal exit and rolls back on an exception, and
  `Database.add_transaction` re-raises after logging; so on any exception
  the stored state reverts to the pre-call state and the error propagates.
- Python raises `ZeroDivisionError` on float division by zero; the BUY
  branch divides by `new_amount`, so `new_amount = 0` is modelled as an
  error (also rolled back by the `with` block).
-/

/-- A row of the `holdings` table (`database.py`, schema lines 40-48). -/
structure Holding where
  coin_id : String
  symbol : String
  amount : ℚ
  average_buy_price : ℚ
  updated_at : Nat
deriving Repr, DecidableEq

/-- A row of the `transactions` table (`database.py`, schema lines 51-62).
`type` is the raw string stored (the code only special-cases BUY/SELL). -/
structure Txn where
  coin_id : String
  symbol : String
  type : String
  amount : ℚ
  price_per_coin : ℚ
  total_value : ℚ
  timestamp : Nat
deriving Repr, DecidableEq

/-- The persistent SQLite state: both tables. -/
structure DBState where
  holdings : List Holding
  transactions : List Txn
deriving Repr, DecidableEq

/-- The freshly initialised database (empty tables). -/
def emptyDB : DBState := ⟨[], []⟩

/-- Errors the storage layer can raise during `add_transaction`. -/
inductive DbError
  | storageFailure
  | zeroDivision
deriving Repr, DecidableEq

/-- `SELECT * FROM holdings WHERE coin_id = ?` with `fetchone()`:
`coin_id` is the primary key, so at most one row matches. -/
def findHolding (hs : List Holding) (cid : String) : Option Holding :=
  hs.find? (fun h => h.coin_id == cid)

/-- `Database.add_transaction` (`database.py` lines 71-127).

Returns the stored state after the call together with the error raised, if
any.  Statement indices for the `fail` fault model: 0 = INSERT INTO
transactions, 1 = SELECT holding, 2 = the holdings write (UPDATE / INSERT /
DELETE) when the branch has one, and the last index of each path = COMMIT.
On any error the `with` block rolls back, so the stored state is the input
state `s`. -/
def Database.add_transaction (s : DBState) (coin_id symbol ty : String)
    (amount price : ℚ) (now : Nat) (fail : Option Nat) :
    DBState × Option DbError :=
  -- 1. Record Transaction
  if fail == some 0 then (s, some .storageFailure) else
  let total := amount * price
  let txn : Txn := ⟨coin_id, symbol, ty, amount, price, total, now⟩
  let p1 : DBState := { s with transactions := s.transactions ++ [txn] }
  -- 2. Update Holdings: get current holding
  if fail == some 1 then (s, some .storageFailure) else
  let current := findHolding p1.holdings coin_id
  if ty == "BUY" then
    match current with
    | some cur =>
      -- Calculate new weighted average price
      let new_amount := cur.amount + amount
      if new_amount == 0 then (s, some .zeroDivision) else
      let total_cost := cur.amount * cur.average_buy_price + amount * price
      let new_avg_price := total_cost / new_amount
      if fail == some 2 then (s, some .storageFailure) else
      let p2 : DBState := { p1 with holdings := p1.holdings.map (fun h =>
        if h.coin_id == coin_id then
          { h with amount := new_amount, average_buy_price := new_avg_price,
                   updated_at := now }
        else h) }
      if fail == some 3 then (s, some .storageFailure) else (p2, none)
    | none =>
      -- New holding
      if fail == some 2 then (s, some .storageFailure) else
      let p2 : DBState :=
        { p1 with holdings := p1.holdings ++ [⟨coin_id, symbol, amount, price, now⟩] }
      if fail == some 3 then (s, some .storageFailure) else (p2, none)
  else if ty == "SELL" then
    match current with
    | some cur =>
      let new_amount := cur.amount - amount
      if new_amount ≤ 0 then
        -- Sold everything
        if fail == some 2 then (s, some .storageFailure) else
        let p2 : DBState :=
          { p1 with holdings := p1.holdings.filter (fun h => !(h.coin_id == coin_id)) }
        if fail == some 3 then (s, some .storageFailure) else (p2, none)
      else
        -- Update amount (avg price does not change on sell)
        if fail == some 2 then (s, some .storageFailure) else
        let p2 : DBState := { p1 with holdings := p1.holdings.map (fun h =>
          if h.coin_id == coin_id then
            { h with amount := new_amount, updated_at := now }
          else h) }
        if fail == some 3 then (s, some .storageFailure) else (p2, none)
    | none =>
      if fail == some 2 then (s, some .storageFailure) else (p1, none)
  else
    if fail == some 2 then (s, some .storageFailure) else (p1, none)

/-- Cost basis of a holding, the sort key of `get_holdings`. -/
def costBasis (h : Holding) : ℚ := h.amount * h.average_buy_price

/-- Insert into a list sorted by descending cost basis. -/
def insertDescCost (h : Holding) : List Holding → List Holding
  | [] => [h]
  | x :: xs =>
    if costBasis x < costBasis h then h :: x :: xs else x :: insertDescCost h xs

/-- `ORDER BY amount * average_buy_price DESC` as an insertion sort. -/
def sortDescCost (hs : List Holding) : List Holding := hs.foldr insertDescCost []

/-- `Database.get_holdings` (`database.py` lines 129-138): on any storage
error the exception is caught and `[]` is returned. -/
def Database.get_holdings (s : DBState) (fail : Bool) : List Holding :=
  if fail then [] else sortDescCost s.holdings

/-- Insert into a list sorted by descending timestamp. -/
def insertDescTime (t : Txn) : List Txn → List Txn
  | [] => [t]
  | x :: xs =>
    if x.timestamp < t.timestamp then t :: x :: xs else x :: insertDescTime t xs

/-- `ORDER BY timestamp DESC` as an insertion sort. -/
def sortDescTime (ts : List Txn) : List Txn := ts.foldr insertDescTime []

/-- `Database.get_transactions` (`database.py` lines 140-152): optional
coin filter, descending timestamp; on any storage error returns `[]`. -/
def Database.get_transactions (s : DBState) (coinFilter : Option String)
    (fail : Bool) : List Txn :=
  if fail then []
  else
    match coinFilter with
    | some cid => sortDescTime (s.transactions.filter (fun t => t.coin_id == cid))
    | none => sortDescTime s.transactions

/-- `PortfolioManager.add_transaction` (`portfolio_manager.py` lines 39-64):
upper-cases `symbol` and `type`, delegates to the database, returns `True`
on success and `False` when the database raised.  The result pairs the
boolean with the stored state after the call. -/
def PortfolioManager.add_transaction (s : DBState) (coin_id symbol ty : String)
    (amount price : ℚ) (now : Nat) (fail : Option Nat) : Bool × DBState :=
  let r := Database.add_transaction s coin_id symbol.toUpper ty.toUpper
      amount price now fail
  match r.2 with
  | none => (true, r.1)
  | some _ => (false, r.1)

/-- `PortfolioItem` (`portfolio_manager.py` lines 18-28). -/
structure PortfolioItem where
  coin_id : String
  symbol : String
  amount : ℚ
  avg_buy_price : ℚ
  current_price : ℚ
  current_value : ℚ
  pnl : ℚ
  pnl_percent : ℚ
deriving Repr, DecidableEq

/-- `current_prices.get(coin_id, default)`: dictionary lookup with default. -/
def priceLookup (prices : List (String × ℚ)) (cid : String) (dflt : ℚ) : ℚ :=
  match prices.find? (fun p => p.1 == cid) with
  | some p => p.2
  | none => dflt

/-- The loop body of `PortfolioManager.get_portfolio_summary`
(`portfolio_manager.py` lines 79-106): one Holding to one PortfolioItem. -/
def summarizeOne (prices : List (String × ℚ)) (h : Holding) : PortfolioItem :=
  let current_price := priceLookup prices h.coin_id h.average_buy_price
  let current_value := h.amount * current_price
  let cost_basis := h.amount * h.average_buy_price
  let pnl := current_value - cost_basis
  let pnl_percent := if 0 < cost_basis then pnl / cost_basis * 100 else 0
  ⟨h.coin_id, h.symbol, h.amount, h.average_buy_price, current_price,
   current_value, pnl, pnl_percent⟩

/-- `PortfolioManager.get_portfolio_summary` (`portfolio_manager.py`
lines 66-108): map the loop body over `db.get_holdings()`. -/
def PortfolioManager.get_portfolio_summary (s : DBState)
    (prices : List (String × ℚ)) (fail : Bool) : List PortfolioItem :=
  (Database.get_holdings s fail).map (summarizeOne prices)

/-- `PortfolioManager.get_total_balance`. -/
def PortfolioManager.get_total_balance (items : List PortfolioItem) : ℚ :=
  (items.map (fun i => i.current_value)).sum

/-- `PortfolioManager.get_total_pnl`. -/
def PortfolioManager.get_total_pnl (items : List PortfolioItem) : ℚ :=
  (items.map (fun i => i.pnl)).sum

/-- One `record` call, for stating reachability of storage states. -/
structure RecordCall where
  coin_id : String
  symbol : String
  ty : String
  amount : ℚ
  price : ℚ
  now : Nat
  fail : Option Nat
deriving Repr

/-- The stored state after a sequence of `Database.add_transaction` calls. -/
def runCalls (s : DBState) (cs : List RecordCall) : DBState :=
  cs.foldl (fun st c =>
    (Database.add_transaction st c.coin_id c.symbol c.ty c.amount c.price
      c.now c.fail).1) s

/-- The one situation in which `Database.add_transaction` divides by zero:
a BUY onto an existing holding whose amount is exactly cancelled. -/
def buyZeroDiv (s : DBState) (cid ty : String) (amt : ℚ) : Bool :=
  ty == "BUY" &&
    (match findHolding s.holdings cid with
     | some cur => cur.amount + amt == 0
     | none => false)

/-! ### Helper lemmas -/

lemma findHolding_mem {hs : List Holding} {cid : String} {h : Holding}
    (hf : findHolding hs cid = some h) : h ∈ hs :=
  List.mem_of_find?_eq_some hf

lemma findHolding_key {hs : List Holding} {cid : String} {h : Holding}
    (hf : findHolding hs cid = some h) : h.coin_id = cid := by
  have := List.find?_some hf
  simpa [beq_iff_eq] using this

/-- BUY onto an existing holding: explicit result of `Database.add_transaction`. -/
lemma buy_existing_eq (s : DBState) (cid sym : String) (amt pr : ℚ) (now : Nat)
    (cur : Holding) (hfind : findHolding s.holdings cid = some cur)
    (hne : cur.amount + amt ≠ 0) :
    Database.add_transaction s cid sym "BUY" amt pr now none =
      ({ holdings := s.holdings.map (fun h =>
            if h.coin_id == cid then
              { h with amount := cur.amount + amt,
                       average_buy_price :=
                         (cur.amount * cur.average_buy_price + amt * pr) /
                           (cur.amount + amt),
                       updated_at := now }
            else h),
         transactions := s.transactions ++ [⟨cid, sym, "BUY", amt, pr, amt * pr, now⟩] },
       none) := by
  unfold Database.add_transaction
  dsimp only
  rw [hfind]
  simp [beq_iff_eq, hne]

/-- BUY with no existing holding: explicit result. -/
lemma buy_fresh_eq (s : DBState) (cid sym : String) (amt pr : ℚ) (now : Nat)
    (hfind : findHolding s.holdings cid = none) :
    Database.add_transaction s cid sym "BUY" amt pr now none =
      ({ holdings := s.holdings ++ [⟨cid, sym, amt, pr, now⟩],
         transactions := s.transactions ++ [⟨cid, sym, "BUY", amt, pr, amt * pr, now⟩] },
       none) := by
  unfold Database.add_transaction
  dsimp only
  rw [hfind]
  simp

/-- SELL leaving a positive remainder: explicit result. -/
lemma sell_partial_eq (s : DBState) (cid sym : String) (amt pr : ℚ) (now : Nat)
    (cur : Holding) (hfind : findHolding s.holdings cid = some cur)
    (hgt : 0 < cur.amount - amt) :
    Database.add_transaction s cid sym "SELL" amt pr now none =
      ({ holdings := s.holdings.map (fun h =>
            if h.coin_id == cid then
              { h with amount := cur.amount - amt, updated_at := now }
            else h),
         transactions := s.transactions ++ [⟨cid, sym, "SELL", amt, pr, amt * pr, now⟩] },
       none) := by
  unfold Database.add_transaction
  dsimp only
  rw [hfind]
  rw [if_neg (by simp [not_le.mpr hgt])]
  simp [not_le.mpr hgt]

/-- SELL consuming the full amount (or more): explicit result. -/
lemma sell_all_eq (s : DBState) (cid sym : String) (amt pr : ℚ) (now : Nat)
    (cur : Holding) (hfind : findHolding s.holdings cid = some cur)
    (hle : cur.amount - amt ≤ 0) :
    Database.add_transaction s cid sym "SELL" amt pr now none =
      ({ holdings := s.holdings.filter (fun h => !(h.coin_id == cid)),
         transactions := s.transactions ++ [⟨cid, sym, "SELL", amt, pr, amt * pr, now⟩] },
       none) := by
  unfold Database.add_transaction
  dsimp only
  rw [hfind]
  simp [hle]

/-- SELL with no existing holding: explicit result. -/
lemma sell_none_eq (s : DBState) (cid sym : String) (amt pr : ℚ) (now : Nat)
    (hfind : findHolding s.holdings cid = none) :
    Database.add_transaction s cid sym "SELL" amt pr now none =
      ({ holdings := s.holdings,
         transactions := s.transactions ++ [⟨cid, sym, "SELL", amt, pr, amt * pr, now⟩] },
       none) := by
  unfold Database.add_transaction
  dsimp only
  rw [hfind]
  simp

/-! ### Claim theorems -/

/-- C1: Weighted-average cost on BUY.  For every existing Holding
(data-model invariant: positive amount) and BUY (positive amount),
`Database.add_transaction` updates the Holding to
`new_amount = existing.amount + amount` and `average_buy_price =
(existing.amount * existing.average_buy_price + amount * price_per_unit) /
new_amount`; a BUY with no existing Holding creates one with
`amount = amount`, `average_buy_price = price_per_unit`; and
`record(BTC, BUY, 1, 100)` followed by `record(BTC, BUY, 1, 300)` leaves
the Holding at `amount = 2`, `average_buy_price = 200`. -/
theorem buy_weighted_average :
    (∀ (s : DBState) (cid sym : String) (amt pr : ℚ) (now : Nat) (cur : Holding),
      findHolding s.holdings cid = some cur → 0 < cur.amount → 0 < amt →
      Database.add_transaction s cid sym "BUY" amt pr now none =
        ({ holdings := s.holdings.map (fun h =>
              if h.coin_id == cid then
                { h with amount := cur.amount + amt,
                         average_buy_price :=
                           (cur.amount * cur.average_buy_price + amt * pr) /
                             (cur.amount + amt),
                         updated_at := now }
              else h),
           transactions :=
             s.transactions ++ [⟨cid, sym, "BUY", amt, pr, amt * pr, now⟩] },
         none)) ∧
    (∀ (s : DBState) (cid sym : String) (amt pr : ℚ) (now : Nat),
      findHolding s.holdings cid = none →
      Database.add_transaction s cid sym "BUY" amt pr now none =
        ({ holdings := s.holdings ++ [⟨cid, sym, amt, pr, now⟩],
           transactions :=
             s.transactions ++ [⟨cid, sym, "BUY", amt, pr, amt * pr, now⟩] },
         none)) ∧
    (Database.add_transaction
        (Database.add_transaction emptyDB "bitcoin" "BTC" "BUY" 1 100 0 none).1
        "bitcoin" "BTC" "BUY" 1 300 1 none).1.holdings
      = [⟨"bitcoin", "BTC", 2, 200, 1⟩] := by
  refine ⟨fun s cid sym amt pr now cur hfind hcur hamt => ?_,
          fun s cid sym amt pr now hfind => buy_fresh_eq s cid sym amt pr now hfind,
          ?_⟩
  · exact buy_existing_eq s cid sym amt pr now cur hfind (by positivity)
  · norm_num [Database.add_transaction, emptyDB, findHolding]

/-- Witness for C1: the weighted-average theorem applied at the concrete
holding `{amount := 1, average_buy_price := 100}` and a BUY of 1 at 300. -/
theorem buy_weighted_average_witness :
    Database.add_transaction ⟨[⟨"bitcoin", "BTC", 1, 100, 0⟩], []⟩
        "bitcoin" "BTC" "BUY" 1 300 7 none =
      (⟨[⟨"bitcoin", "BTC", 2, 200, 7⟩], [⟨"bitcoin", "BTC", "BUY", 1, 300, 300, 7⟩]⟩,
       none) := by
  rw [buy_weighted_average.1 ⟨[⟨"bitcoin", "BTC", 1, 100, 0⟩], []⟩ "bitcoin" "BTC"
      1 300 7 ⟨"bitcoin", "BTC", 1, 100, 0⟩ (by simp [findHolding])
      (by norm_num) (by norm_num)]
  norm_num

/-- C3: SELL preserves cost basis.  For every existing Holding with
`existing.amount - amount > 0`, a SELL decrements the amount to
`existing.amount - amount` and modifies only `amount` and `updated_at`;
`average_buy_price` is unchanged, whatever the sell price. -/
theorem sell_preserves_average :
    ∀ (s : DBState) (cid sym : String) (amt pr : ℚ) (now : Nat) (cur : Holding),
      findHolding s.holdings cid = some cur → 0 < cur.amount - amt →
      Database.add_transaction s cid sym "SELL" amt pr now none =
        ({ holdings := s.holdings.map (fun h =>
              if h.coin_id == cid then
                { h with amount := cur.amount - amt, updated_at := now }
              else h),
           transactions :=
             s.transactions ++ [⟨cid, sym, "SELL", amt, pr, amt * pr, now⟩] },
         none) :=
  fun s cid sym amt pr now cur hfind hgt =>
    sell_partial_eq s cid sym amt pr now cur hfind hgt

/-- Witness for C3: selling 0.5 of a 2-coin holding at price 999 leaves
amount 1.5 and the average untouched at 200. -/
theorem sell_preserves_average_witness :
    Database.add_transaction ⟨[⟨"bitcoin", "BTC", 2, 200, 1⟩], []⟩
        "bitcoin" "BTC" "SELL" (1/2) 999 9 none =
      (⟨[⟨"bitcoin", "BTC", 3/2, 200, 9⟩],
        [⟨"bitcoin", "BTC", "SELL", 1/2, 999, 999/2, 9⟩]⟩, none) := by
  rw [sell_preserves_average ⟨[⟨"bitcoin", "BTC", 2, 200, 1⟩], []⟩ "bitcoin" "BTC"
      (1/2) 999 9 ⟨"bitcoin", "BTC", 2, 200, 1⟩ (by simp [findHolding])
      (by norm_num)]
  norm_num

/-- C7: SELL with no existing Holding and valid inputs succeeds, appends
the Transaction fact, and leaves the holdings table untouched. -/
theorem sell_without_holding :
    ∀ (s : DBState) (cid sym : String) (amt pr : ℚ) (now : Nat),
      findHolding s.holdings cid = none → 0 < amt → 0 < pr →
      Database.add_transaction s cid sym "SELL" amt pr now none =
        ({ holdings := s.holdings,
           transactions :=
             s.transactions ++ [⟨cid, sym, "SELL", amt, pr, amt * pr, now⟩] },
         none) :=
  fun s cid sym amt pr now hfind _ _ => sell_none_eq s cid sym amt pr now hfind

/-- Witness for C7: selling an asset that is not held records the fact
and touches no holding. -/
theorem sell_without_holding_witness :
    Database.add_transaction ⟨[⟨"ethereum", "ETH", 5, 2800, 0⟩], []⟩
        "bitcoin" "BTC" "SELL" 1 100 4 none =
      (⟨[⟨"ethereum", "ETH", 5, 2800, 0⟩],
        [⟨"bitcoin", "BTC", "SELL", 1, 100, 100, 4⟩]⟩, none) := by
  rw [sell_without_holding ⟨[⟨"ethereum", "ETH", 5, 2800, 0⟩], []⟩ "bitcoin" "BTC"
      1 100 4 (by simp [findHolding]) (by norm_num) (by norm_num)]
  norm_num

/-- A kind other than BUY/SELL: the transaction is recorded, holdings
untouched. -/
lemma other_kind_eq (s : DBState) (cid sym ty : String) (amt pr : ℚ) (now : Nat)
    (hbuy : ty ≠ "BUY") (hsell : ty ≠ "SELL") :
    Database.add_transaction s cid sym ty amt pr now none =
      ({ holdings := s.holdings,
         transactions := s.transactions ++ [⟨cid, sym, ty, amt, pr, amt * pr, now⟩] },
       none) := by
  unfold Database.add_transaction
  dsimp only
  simp [beq_iff_eq, hbuy, hsell]

/-- Rollback: whenever `add_transaction` reports an error, the stored state
is exactly the pre-call state. -/
lemma add_transaction_rollback (s : DBState) (cid sym ty : String)
    (amt pr : ℚ) (now : Nat) (fail : Option Nat) (e : DbError)
    (herr : (Database.add_transaction s cid sym ty amt pr now fail).2 = some e) :
    (Database.add_transaction s cid sym ty amt pr now fail).1 = s := by
  revert herr
  unfold Database.add_transaction
  dsimp only
  by_cases h0 : (fail == some 0) = true
  · rw [if_pos h0]; intro _; rfl
  rw [if_neg h0]
  by_cases h1 : (fail == some 1) = true
  · rw [if_pos h1]; intro _; rfl
  rw [if_neg h1]
  by_cases hb : (ty == "BUY") = true
  · rw [if_pos hb]
    cases hfind : findHolding s.holdings cid with
    | some cur =>
      dsimp only
      by_cases hz : (cur.amount + amt == 0) = true
      · rw [if_pos hz]; intro _; rfl
      rw [if_neg hz]
      by_cases h2 : (fail == some 2) = true
      · rw [if_pos h2]; intro _; rfl
      rw [if_neg h2]
      by_cases h3 : (fail == some 3) = true
      · rw [if_pos h3]; intro _; rfl
      rw [if_neg h3]
      intro herr
      simp at herr
    | none =>
      dsimp only
      by_cases h2 : (fail == some 2) = true
      · rw [if_pos h2]; intro _; rfl
      rw [if_neg h2]
      by_cases h3 : (fail == some 3) = true
      · rw [if_pos h3]; intro _; rfl
      rw [if_neg h3]
      intro herr
      simp at herr
  · rw [if_neg hb]
    by_cases hs2 : (ty == "SELL") = true
    · rw [if_pos hs2]
      cases hfind : findHolding s.holdings cid with
      | some cur =>
        dsimp only
        by_cases hle : cur.amount - amt ≤ 0
        · rw [if_pos hle]
          by_cases h2 : (fail == some 2) = true
          · rw [if_pos h2]; intro _; rfl
          rw [if_neg h2]
          by_cases h3 : (fail == some 3) = true
          · rw [if_pos h3]; intro _; rfl
          rw [if_neg h3]
          intro herr
          simp at herr
        · rw [if_neg hle]
          by_cases h2 : (fail == some 2) = true
          · rw [if_pos h2]; intro _; rfl
          rw [if_neg h2]
          by_cases h3 : (fail == some 3) = true
          · rw [if_pos h3]; intro _; rfl
          rw [if_neg h3]
          intro herr
          simp at herr
      | none =>
        dsimp only
        by_cases h2 : (fail == some 2) = true
        · rw [if_pos h2]; intro _; rfl
        rw [if_neg h2]
        intro herr
        simp at herr
    · rw [if_neg hs2]
      by_cases h2 : (fail == some 2) = true
      · rw [if_pos h2]; intro _; rfl
      rw [if_neg h2]
      intro herr
      simp at herr

/-- No-failure success: with no storage fault and no zero division, the
call reports no error and appends exactly one transaction row. -/
lemma add_transaction_ok (s : DBState) (cid sym ty : String) (amt pr : ℚ)
    (now : Nat) (hz : buyZeroDiv s cid ty amt = false) :
    (Database.add_transaction s cid sym ty amt pr now none).2 = none ∧
    (Database.add_transaction s cid sym ty amt pr now none).1.transactions =
      s.transactions ++ [⟨cid, sym, ty, amt, pr, amt * pr, now⟩] := by
  by_cases hbuy : ty = "BUY"
  · subst hbuy
    cases hfind : findHolding s.holdings cid with
    | some cur =>
      have hne : cur.amount + amt ≠ 0 := by
        intro hc
        unfold buyZeroDiv at hz
        simp [hfind, hc] at hz
      rw [buy_existing_eq s cid sym amt pr now cur hfind hne]
      exact ⟨rfl, rfl⟩
    | none =>
      rw [buy_fresh_eq s cid sym amt pr now hfind]
      exact ⟨rfl, rfl⟩
  · by_cases hsell : ty = "SELL"
    · subst hsell
      cases hfind : findHolding s.holdings cid with
      | some cur =>
        by_cases hle : cur.amount - amt ≤ 0
        · rw [sell_all_eq s cid sym amt pr now cur hfind hle]
          exact ⟨rfl, rfl⟩
        · rw [sell_partial_eq s cid sym amt pr now cur hfind (by linarith [not_le.1 hle])]
          exact ⟨rfl, rfl⟩
      | none =>
        rw [sell_none_eq s cid sym amt pr now hfind]
        exact ⟨rfl, rfl⟩
    · rw [other_kind_eq s cid sym ty amt pr now hbuy hsell]
      exact ⟨rfl, rfl⟩

/-- A SELL never leaves a non-positive holding behind, whatever the sold
amount and whether or not the storage faults. -/
lemma sell_pos (s : DBState) (cid sym : String) (amt pr : ℚ) (now : Nat)
    (fail : Option Nat) (hpos : ∀ h ∈ s.holdings, 0 < h.amount) :
    ∀ h ∈ (Database.add_transaction s cid sym "SELL" amt pr now fail).1.holdings,
      0 < h.amount := by
  unfold Database.add_transaction
  dsimp only
  by_cases h0 : (fail == some 0) = true
  · rw [if_pos h0]; exact hpos
  rw [if_neg h0]
  by_cases h1 : (fail == some 1) = true
  · rw [if_pos h1]; exact hpos
  rw [if_neg h1]
  rw [if_neg (by simp : ¬ ((("SELL" : String) == "BUY") = true))]
  rw [if_pos (by simp : (("SELL" : String) == "SELL") = true)]
  cases hfind : findHolding s.holdings cid with
  | none =>
    dsimp only
    by_cases h2 : (fail == some 2) = true
    · rw [if_pos h2]; exact hpos
    · rw [if_neg h2]; exact hpos
  | some cur =>
    dsimp only
    by_cases hle : cur.amount - amt ≤ 0
    · rw [if_pos hle]
      by_cases h2 : (fail == some 2) = true
      · rw [if_pos h2]; exact hpos
      rw [if_neg h2]
      by_cases h3 : (fail == some 3) = true
      · rw [if_pos h3]; exact hpos
      rw [if_neg h3]
      intro h hmem
      exact hpos h (List.mem_of_mem_filter hmem)
    · rw [if_neg hle]
      by_cases h2 : (fail == some 2) = true
      · rw [if_pos h2]; exact hpos
      rw [if_neg h2]
      by_cases h3 : (fail == some 3) = true
      · rw [if_pos h3]; exact hpos
      rw [if_neg h3]
      intro h hmem
      obtain ⟨a, ha, rfl⟩ := List.mem_map.1 hmem
      by_cases hc : (a.coin_id == cid) = true
      · rw [if_pos hc]
        dsimp only
        linarith [not_le.1 hle]
      · rw [if_neg hc]
        exact hpos a ha

/-- A BUY of a positive amount preserves positivity of all holdings. -/
lemma buy_pos (s : DBState) (cid sym : String) (amt pr : ℚ) (now : Nat)
    (fail : Option Nat) (hamt : 0 < amt)
    (hpos : ∀ h ∈ s.holdings, 0 < h.amount) :
    ∀ h ∈ (Database.add_transaction s cid sym "BUY" amt pr now fail).1.holdings,
      0 < h.amount := by
  unfold Database.add_transaction
  dsimp only
  by_cases h0 : (fail == some 0) = true
  · rw [if_pos h0]; exact hpos
  rw [if_neg h0]
  by_cases h1 : (fail == some 1) = true
  · rw [if_pos h1]; exact hpos
  rw [if_neg h1]
  rw [if_pos (by simp : (("BUY" : String) == "BUY") = true)]
  cases hfind : findHolding s.holdings cid with
  | none =>
    dsimp only
    by_cases h2 : (fail == some 2) = true
    · rw [if_pos h2]; exact hpos
    rw [if_neg h2]
    by_cases h3 : (fail == some 3) = true
    · rw [if_pos h3]; exact hpos
    rw [if_neg h3]
    intro h hmem
    rcases List.mem_append.1 hmem with hmem | hmem
    · exact hpos h hmem
    · obtain rfl := List.mem_singleton.1 hmem
      exact hamt
  | some cur =>
    dsimp only
    by_cases hz : (cur.amount + amt == 0) = true
    · rw [if_pos hz]; exact hpos
    rw [if_neg hz]
    by_cases h2 : (fail == some 2) = true
    · rw [if_pos h2]; exact hpos
    rw [if_neg h2]
    by_cases h3 : (fail == some 3) = true
    · rw [if_pos h3]; exact hpos
    rw [if_neg h3]
    intro h hmem
    obtain ⟨a, ha, rfl⟩ := List.mem_map.1 hmem
    have hcur : 0 < cur.amount := hpos cur (findHolding_mem hfind)
    by_cases hc : (a.coin_id == cid) = true
    · rw [if_pos hc]
      dsimp only
      linarith
    · rw [if_neg hc]
      exact hpos a ha

/-- One `record` call with positive amount preserves positivity of all
holdings, for every kind, price and fault pattern. -/
lemma add_transaction_pos (s : DBState) (cid sym ty : String) (amt pr : ℚ)
    (now : Nat) (fail : Option Nat) (hamt : 0 < amt)
    (hpos : ∀ h ∈ s.holdings, 0 < h.amount) :
    ∀ h ∈ (Database.add_transaction s cid sym ty amt pr now fail).1.holdings,
      0 < h.amount := by
  by_cases hsell : ty = "SELL"
  · subst hsell; exact sell_pos s cid sym amt pr now fail hpos
  by_cases hbuy : ty = "BUY"
  · subst hbuy; exact buy_pos s cid sym amt pr now fail hamt hpos
  unfold Database.add_transaction
  dsimp only
  by_cases h0 : (fail == some 0) = true
  · rw [if_pos h0]; exact hpos
  rw [if_neg h0]
  by_cases h1 : (fail == some 1) = true
  · rw [if_pos h1]; exact hpos
  rw [if_neg h1]
  rw [if_neg (by simp [beq_iff_eq, hbuy] : ¬ ((ty == "BUY") = true))]
  rw [if_neg (by simp [beq_iff_eq, hsell] : ¬ ((ty == "SELL") = true))]
  by_cases h2 : (fail == some 2) = true
  · rw [if_pos h2]; exact hpos
  · rw [if_neg h2]; exact hpos

/-- C4: Full liquidation and oversell absorption.  A SELL with
`existing.amount - amount <= 0` deletes the Holding (the row is filtered
out and no longer found), the Transaction history still receives the
liquidating SELL, and no SELL ever leaves a zero or negative Holding
behind. -/
theorem sell_liquidates :
    (∀ (s : DBState) (cid sym : String) (amt pr : ℚ) (now : Nat) (cur : Holding),
      findHolding s.holdings cid = some cur → cur.amount - amt ≤ 0 →
      Database.add_transaction s cid sym "SELL" amt pr now none =
        ({ holdings := s.holdings.filter (fun h => !(h.coin_id == cid)),
           transactions :=
             s.transactions ++ [⟨cid, sym, "SELL", amt, pr, amt * pr, now⟩] },
         none)) ∧
    (∀ (s : DBState) (cid sym : String) (amt pr : ℚ) (now : Nat) (cur : Holding),
      findHolding s.holdings cid = some cur → cur.amount - amt ≤ 0 →
      findHolding
        (Database.add_transaction s cid sym "SELL" amt pr now none).1.holdings
        cid = none) ∧
    (∀ (s : DBState) (cid sym : String) (amt pr : ℚ) (now : Nat)
        (fail : Option Nat),
      (∀ h ∈ s.holdings, 0 < h.amount) →
      ∀ h ∈ (Database.add_transaction s cid sym "SELL" amt pr now fail).1.holdings,
        0 < h.amount) := by
  refine ⟨fun s cid sym amt pr now cur hfind hle =>
            sell_all_eq s cid sym amt pr now cur hfind hle,
          fun s cid sym amt pr now cur hfind hle => ?_,
          fun s cid sym amt pr now fail hpos =>
            sell_pos s cid sym amt pr now fail hpos⟩
  rw [sell_all_eq s cid sym amt pr now cur hfind hle]
  dsimp only
  unfold findHolding
  apply List.find?_eq_none.2
  intro a ha
  have hmf := (List.mem_filter.1 ha).2
  simpa using hmf

/-- Witness for C4: selling the whole 1.5-coin position removes the
Holding while the SELL fact is appended to the history. -/
theorem sell_liquidates_witness :
    Database.add_transaction
        ⟨[⟨"bitcoin", "BTC", 3/2, 200, 2⟩], [⟨"bitcoin", "BTC", "BUY", 1, 100, 100, 0⟩]⟩
        "bitcoin" "BTC" "SELL" (3/2) 500 3 none =
      (⟨[], [⟨"bitcoin", "BTC", "BUY", 1, 100, 100, 0⟩,
             ⟨"bitcoin", "BTC", "SELL", 3/2, 500, 750, 3⟩]⟩, none) := by
  rw [sell_liquidates.1
      ⟨[⟨"bitcoin", "BTC", 3/2, 200, 2⟩], [⟨"bitcoin", "BTC", "BUY", 1, 100, 100, 0⟩]⟩
      "bitcoin" "BTC" (3/2) 500 3 ⟨"bitcoin", "BTC", 3/2, 200, 2⟩
      (by simp [findHolding]) (by norm_num)]
  norm_num

/-- C5: Atomicity and propagation of storage failure.  Whenever the
persistence layer raises during `add_transaction`, the stored state is
exactly the pre-call state (rollback of the enclosing SQL transaction),
and `PortfolioManager.add_transaction` surfaces the failure as `false`
with the state unchanged. -/
theorem record_atomic_on_failure :
    (∀ (s : DBState) (cid sym ty : String) (amt pr : ℚ) (now : Nat)
        (fail : Option Nat) (e : DbError),
      (Database.add_transaction s cid sym ty amt pr now fail).2 = some e →
      (Database.add_transaction s cid sym ty amt pr now fail).1 = s) ∧
    (∀ (s : DBState) (cid sym ty : String) (amt pr : ℚ) (now : Nat)
        (fail : Option Nat) (e : DbError),
      (Database.add_transaction s cid
          sym.toUpper ty.toUpper amt pr now fail).2 = some e →
      PortfolioManager.add_transaction s cid sym ty amt pr now fail =
        (false, s)) := by
  refine ⟨fun s cid sym ty amt pr now fail e herr =>
            add_transaction_rollback s cid sym ty amt pr now fail e herr,
          fun s cid sym ty amt pr now fail e herr => ?_⟩
  unfold PortfolioManager.add_transaction
  dsimp only
  rw [herr]
  rw [add_transaction_rollback s cid sym.toUpper ty.toUpper amt pr now fail e herr]

/-- Witness for C5: a fault on the very first INSERT leaves the empty
database untouched and makes the manager return `false`. -/
theorem record_atomic_on_failure_witness :
    (Database.add_transaction emptyDB "bitcoin" "BTC" "BUY" 1 100 0 (some 0)).2 =
      some DbError.storageFailure ∧
    (Database.add_transaction emptyDB "bitcoin" "BTC" "BUY" 1 100 0 (some 0)).1 =
      emptyDB ∧
    PortfolioManager.add_transaction emptyDB "bitcoin" "btc" "buy" 1 100 0 (some 0) =
      (false, emptyDB) :=
  ⟨rfl,
   record_atomic_on_failure.1 emptyDB "bitcoin" "BTC" "BUY" 1 100 0 (some 0)
     DbError.storageFailure rfl,
   record_atomic_on_failure.2 emptyDB "bitcoin" "btc" "buy" 1 100 0 (some 0)
     DbError.storageFailure rfl⟩

/-- C2 counterexample: `record(bitcoin, BTC, BUY, -1, 100)` has
`amount ≤ 0`, yet it does NOT fail — the manager reports success (`true`),
a Transaction fact is appended, and a Holding with amount −1 is created,
contradicting the claimed `InvalidTransaction` rejection with no state
change. -/
theorem record_no_validation_counterexample :
    ((-1 : ℚ) ≤ 0) ∧
    PortfolioManager.add_transaction emptyDB "bitcoin" "BTC" "BUY" (-1) 100 0 none =
      (true, ⟨[⟨"bitcoin", "BTC", -1, 100, 0⟩],
              [⟨"bitcoin", "BTC", "BUY", -1, 100, -100, 0⟩]⟩) := by
  have hBTC : ("BTC" : String).toUpper = "BTC" := by
    simp [String.toUpper, String.map_eq]
  have hBUY : ("BUY" : String).toUpper = "BUY" := by
    simp [String.toUpper, String.map_eq]
  constructor
  · norm_num
  · unfold PortfolioManager.add_transaction
    rw [hBTC, hBUY]
    norm_num [Database.add_transaction, emptyDB, findHolding]

/-- C2 amended: `record` performs no input validation at all.  For every
input — non-positive amount or price, unknown kind, empty coin_id — as
long as storage does not fault and the BUY weighted-average division is
defined, the call succeeds (`true`) and unconditionally appends the
Transaction fact. -/
theorem record_accepts_any_input :
    ∀ (s : DBState) (cid sym ty : String) (amt pr : ℚ) (now : Nat),
      buyZeroDiv s cid ty.toUpper amt = false →
      (PortfolioManager.add_transaction s cid sym ty amt pr now none).1 = true ∧
      (PortfolioManager.add_transaction s cid sym ty amt pr now none).2.transactions =
        s.transactions ++ [⟨cid, sym.toUpper, ty.toUpper, amt, pr, amt * pr, now⟩] := by
  intro s cid sym ty amt pr now hz
  obtain ⟨h2, h1⟩ := add_transaction_ok s cid sym.toUpper ty.toUpper amt pr now hz
  unfold PortfolioManager.add_transaction
  dsimp only
  rw [h2]
  exact ⟨rfl, h1⟩

/-- Witness for the amended C2: the invalid BUY of amount −1 on an empty
database is accepted and recorded. -/
theorem record_accepts_any_input_witness :
    ((-1 : ℚ) ≤ 0) ∧
    (PortfolioManager.add_transaction emptyDB "bitcoin" "BTC" "BUY" (-1) 100 0 none).1 =
      true ∧
    (PortfolioManager.add_transaction emptyDB "bitcoin" "BTC" "BUY" (-1) 100 0
        none).2.transactions =
      emptyDB.transactions ++
        [⟨"bitcoin", ("BTC" : String).toUpper, ("BUY" : String).toUpper,
          -1, 100, -1 * 100, 0⟩] := by
  refine ⟨by norm_num, ?_, ?_⟩
  · exact (record_accepts_any_input emptyDB "bitcoin" "BTC" "BUY" (-1) 100 0
      (by simp [buyZeroDiv, emptyDB, findHolding, String.toUpper, String.map_eq])).1
  · exact (record_accepts_any_input emptyDB "bitcoin" "BTC" "BUY" (-1) 100 0
      (by simp [buyZeroDiv, emptyDB, findHolding, String.toUpper, String.map_eq])).2

/-- Positivity of all holdings is preserved along any sequence of record
calls whose amounts are positive. -/
lemma runCalls_pos : ∀ (cs : List RecordCall) (s : DBState),
    (∀ c ∈ cs, 0 < c.amount) → (∀ h ∈ s.holdings, 0 < h.amount) →
    ∀ h ∈ (runCalls s cs).holdings, 0 < h.amount := by
  intro cs
  induction cs with
  | nil =>
    intro s _ hpos
    simpa [runCalls] using hpos
  | cons c cs ih =>
    intro s hcs hpos
    have hstep := add_transaction_pos s c.coin_id c.symbol c.ty c.amount c.price
      c.now c.fail (hcs c (List.mem_cons_self c cs)) hpos
    exact ih
      ((Database.add_transaction s c.coin_id c.symbol c.ty c.amount c.price
        c.now c.fail).1)
      (fun c' hc' => hcs c' (List.mem_cons_of_mem c hc')) hstep

/-- C6 counterexample: the claimed invariant quantifies over all states
reachable by record calls, but a single `record(bitcoin, BTC, BUY, -1, 100)`
from the empty database reaches a state holding a row with amount −1 ≤ 0,
which is retained, not deleted. -/
theorem neg_holding_reachable :
    (runCalls emptyDB [⟨"bitcoin", "BTC", "BUY", -1, 100, 0, none⟩]).holdings =
      [⟨"bitcoin", "BTC", -1, 100, 0⟩] ∧
    ((-1 : ℚ) ≤ 0) := by
  constructor
  · norm_num [runCalls, Database.add_transaction, emptyDB, findHolding]
    rfl
  · norm_num

/-- C6 amended: in every state reachable from the empty database by record
calls whose amount is positive (the data-model constraint on transactions),
every Holding row has amount > 0; a Holding whose amount would reach ≤ 0
is deleted by the SELL branch, never retained. -/
theorem holdings_positive_invariant :
    ∀ cs : List RecordCall, (∀ c ∈ cs, 0 < c.amount) →
      ∀ h ∈ (runCalls emptyDB cs).holdings, 0 < h.amount :=
  fun cs hcs => runCalls_pos cs emptyDB hcs (by simp [emptyDB])

/-- Witness for the amended C6: one positive BUY from the empty database
leaves only the positive holding it creates. -/
theorem holdings_positive_invariant_witness :
    0 < (⟨"bitcoin", "BTC", "BUY", 1, 100, 0, none⟩ : RecordCall).amount ∧
    0 < (⟨"bitcoin", "BTC", 1, 100, 0⟩ : Holding).amount := by
  have hm : (⟨"bitcoin", "BTC", 1, 100, 0⟩ : Holding) ∈
      (runCalls emptyDB [⟨"bitcoin", "BTC", "BUY", 1, 100, 0, none⟩]).holdings := by
    norm_num [runCalls, Database.add_transaction, emptyDB, findHolding]
    exact List.Mem.head _
  exact ⟨by norm_num,
    holdings_positive_invariant [⟨"bitcoin", "BTC", "BUY", 1, 100, 0, none⟩]
      (by norm_num) ⟨"bitcoin", "BTC", 1, 100, 0⟩ hm⟩

/-- C8: Missing-price fallback.  `get_portfolio_summary` maps the loop body
over the stored holdings, and for a Holding whose coin_id is absent from
the price map the PortfolioItem uses `average_buy_price` as current price,
with pnl = 0 and pnl_percent = 0. -/
theorem missing_price_fallback :
    (∀ (s : DBState) (prices : List (String × ℚ)) (fail : Bool),
      PortfolioManager.get_portfolio_summary s prices fail =
        (Database.get_holdings s fail).map (summarizeOne prices)) ∧
    (∀ (prices : List (String × ℚ)) (h : Holding),
      prices.find? (fun p => p.1 == h.coin_id) = none →
      (summarizeOne prices h).current_price = h.average_buy_price ∧
      (summarizeOne prices h).pnl = 0 ∧
      (summarizeOne prices h).pnl_percent = 0) := by
  refine ⟨fun s prices fail => rfl, fun prices h hfind => ?_⟩
  unfold summarizeOne priceLookup
  rw [hfind]
  dsimp only
  refine ⟨rfl, by ring, ?_⟩
  simp [sub_self]

/-- Witness for C8: Holding{amount = 2, average_buy_price = 50} against an
empty price map shows current_price 50, pnl 0, pnl_percent 0. -/
theorem missing_price_fallback_witness :
    (List.find? (fun p => p.1 == "x") ([] : List (String × ℚ)) = none) ∧
    (summarizeOne [] ⟨"x", "X", 2, 50, 0⟩).current_price = 50 ∧
    (summarizeOne [] ⟨"x", "X", 2, 50, 0⟩).pnl = 0 ∧
    (summarizeOne [] ⟨"x", "X", 2, 50, 0⟩).pnl_percent = 0 := by
  have h := missing_price_fallback.2 [] ⟨"x", "X", 2, 50, 0⟩ rfl
  exact ⟨rfl, h.1, h.2.1, h.2.2⟩

/-- C9: Valuation formulas.  For every data-model Holding (positive amount,
non-negative average) and price map, the PortfolioItem satisfies
current_value = amount * current_price,
pnl = current_value - amount * avg_buy_price, and
pnl_percent = pnl / (amount * avg_buy_price) * 100 except that it is 0 when
the cost basis is 0; Holding{amount = 2, average_buy_price = 50} at price
80 yields current_value 160, pnl 60, pnl_percent 60. -/
theorem valuation_formulas :
    (∀ (prices : List (String × ℚ)) (h : Holding),
      0 < h.amount → 0 ≤ h.average_buy_price →
      (summarizeOne prices h).current_value =
        h.amount * (summarizeOne prices h).current_price ∧
      (summarizeOne prices h).pnl =
        (summarizeOne prices h).current_value - h.amount * h.average_buy_price ∧
      (h.amount * h.average_buy_price = 0 →
        (summarizeOne prices h).pnl_percent = 0) ∧
      (h.amount * h.average_buy_price ≠ 0 →
        (summarizeOne prices h).pnl_percent =
          (summarizeOne prices h).pnl / (h.amount * h.average_buy_price) * 100)) ∧
    (summarizeOne [("x", 80)] ⟨"x", "X", 2, 50, 0⟩ =
      ⟨"x", "X", 2, 50, 80, 160, 60, 60⟩) := by
  constructor
  · intro prices h hamt havg
    unfold summarizeOne
    dsimp only
    refine ⟨rfl, rfl, fun hz => ?_, fun hnz => ?_⟩
    · rw [if_neg (show ¬ (0:ℚ) < h.amount * h.average_buy_price by
        rw [hz]; norm_num)]
    · rw [if_pos (lt_of_le_of_ne
        (mul_nonneg (le_of_lt hamt) havg) (Ne.symm hnz))]
  · norm_num [summarizeOne, priceLookup]

/-- Witness for C9: the gain scenario of the spec, with nonzero cost
basis, instantiating the general valuation theorem. -/
theorem valuation_formulas_witness :
    (0:ℚ) < 2 ∧ (0:ℚ) ≤ 50 ∧ (2:ℚ) * 50 ≠ 0 ∧
    (summarizeOne [("x", 80)] ⟨"x", "X", 2, 50, 0⟩).pnl_percent =
      (summarizeOne [("x", 80)] ⟨"x", "X", 2, 50, 0⟩).pnl / (2 * 50) * 100 := by
  refine ⟨by norm_num, by norm_num, by norm_num, ?_⟩
  exact (valuation_formulas.1 [("x", 80)] ⟨"x", "X", 2, 50, 0⟩
    (by norm_num) (by norm_num)).2.2.2 (by norm_num)

/-- C10: the read operations never propagate a storage failure — with a
fault they return the empty list, indistinguishable from reading an empty
database. -/
theorem reads_degrade_to_empty :
    (∀ s : DBState, Database.get_holdings s true = []) ∧
    (∀ (s : DBState) (filterCoin : Option String),
      Database.get_transactions s filterCoin true = []) ∧
    (∀ s : DBState,
      Database.get_holdings s true = Database.get_holdings emptyDB false) ∧
    (∀ (s : DBState) (filterCoin : Option String),
      Database.get_transactions s filterCoin true =
        Database.get_transactions emptyDB filterCoin false) := by
  refine ⟨fun s => rfl, fun s f => rfl, fun s => rfl, fun s f => ?_⟩
  cases f <;> rfl
